import Mathlib

/-!
Verification of the image-processing-pipeline adjuster/processor core.

Shallow embedding of the decision-normalization, geometry and routing code
of `src/stacks/lambda_functions/adjuster/index.py`,
`src/stacks/lambda_functions/processor/index.py` and
`src/model/code/inference.py`.  Python numbers are modelled as exact
rationals (`ℚ`); Python `dict`s coming from `json.loads` are modelled as
association lists of JSON values.
-/

namespace Pipeline

/-- JSON-like dynamic values, the shape of `json.loads` output that the
adjuster's `_normalize_decisions` consumes. -/
inductive JsonVal : Type where
  | null : JsonVal
  | bool : Bool → JsonVal
  | num : ℚ → JsonVal
  | str : String → JsonVal
  | arr : List JsonVal → JsonVal
  | obj : List (String × JsonVal) → JsonVal

/-- `d.get(k)` on a Python dict (modelled as an association list, first
match wins; JSON objects have unique keys). -/
def pyGet (fields : List (String × JsonVal)) (k : String) : Option JsonVal :=
  match fields with
  | [] => none
  | (k', v) :: rest => if k' = k then some v else pyGet rest k

/-- Python `str()` applied to a JSON value (rendering of non-strings is
only ever compared against the two decision enum tokens, so the exact
numeral rendering is immaterial; strings pass through unchanged as in
CPython). -/
def pyStr : JsonVal → String
  | JsonVal.null => "None"
  | JsonVal.bool true => "True"
  | JsonVal.bool false => "False"
  | JsonVal.num q => toString q
  | JsonVal.str s => s
  | JsonVal.arr _ => "[...]"
  | JsonVal.obj _ => "\x7b...\x7d"

/-- Python `str.lower()` on one character (ASCII case map; the decision
tokens and prefixes under comparison are all ASCII). -/
def lowerChar (c : Char) : Char :=
  if 'A' ≤ c ∧ c ≤ 'Z' then Char.ofNat (c.toNat + 32) else c

/-- Python `str.lower()`. -/
def pyLower (s : String) : String := String.mk (s.data.map lowerChar)

/-- Python whitespace, as stripped by `str.strip()` and `float(str)`. -/
def isPySpace (c : Char) : Bool :=
  c = ' ' ∨ c = '\t' ∨ c = '\n' ∨ c = '\x0d' ∨ c = '\x0b' ∨ c = '\x0c'

/-- Python `str.strip()`: drop leading and trailing whitespace. -/
def pyStrip (s : String) : String :=
  String.mk (((s.data.dropWhile isPySpace).reverse.dropWhile isPySpace).reverse)

/-- One character of a decimal unsigned integer literal. -/
def digitVal (c : Char) : Option ℕ :=
  if c.isDigit then some (c.toNat - 48) else none

/-- Parse a non-empty run of decimal digits into (value, digit count). -/
def parseDigits : List Char → Option (ℕ × ℕ)
  | [] => none
  | cs =>
    let rec go : List Char → ℕ → ℕ → Option (ℕ × ℕ)
      | [], acc, n => if n = 0 then none else some (acc, n)
      | c :: rest, acc, n =>
        match digitVal c with
        | some d => go rest (acc * 10 + d) (n + 1)
        | none => none
    go cs 0 0

/-- Split a character list at the first occurrence of a separator
satisfying `p`, if any. -/
def splitAtChar (p : Char → Bool) : List Char → Option (List Char × List Char)
  | [] => none
  | c :: rest =>
    if p c then some ([], rest)
    else match splitAtChar p rest with
      | some (l, r) => some (c :: l, r)
      | none => none

/-- Parse an optional sign, returning (sign, remaining). -/
def parseSign : List Char → ℚ × List Char
  | '+' :: rest => (1, rest)
  | '-' :: rest => (-1, rest)
  | cs => (1, cs)

/-- Parse the digits part `intpart[.fracpart]` of a float literal. -/
def parseMantissa (cs : List Char) : Option ℚ :=
  match splitAtChar (· = '.') cs with
  | some (ip, fp) =>
    match ip, fp with
    | [], [] => none
    | [], _ =>
      match parseDigits fp with
      | some (f, n) => some ((f : ℚ) / (10 : ℚ) ^ n)
      | none => none
    | _, [] =>
      match parseDigits ip with
      | some (i, _) => some (i : ℚ)
      | none => none
    | _, _ =>
      match parseDigits ip, parseDigits fp with
      | some (i, _), some (f, n) => some ((i : ℚ) + (f : ℚ) / (10 : ℚ) ^ n)
      | _, _ => none
  | none =>
    match parseDigits cs with
    | some (i, _) => some (i : ℚ)
    | none => none

/-- Python `float(s)` on a string: optional surrounding whitespace, sign,
decimal mantissa, optional exponent.  Modelled over exact rationals; the
non-finite literals (`inf`, `nan`) fall outside the rational model and are
treated as unparseable. -/
def parsePyFloat (s : String) : Option ℚ :=
  let cs := (pyStrip s).toList
  let (sign, cs) := parseSign cs
  match splitAtChar (fun c => c = 'e' || c = 'E') cs with
  | some (mant, expPart) =>
    match parseMantissa mant with
    | some m =>
      let (esign, ecs) := parseSign expPart
      match parseDigits ecs with
      | some (e, _) =>
        if esign = 1 then some (sign * m * (10 : ℚ) ^ e)
        else some (sign * m / (10 : ℚ) ^ e)
      | none => none
    | none => none
  | none =>
    match parseMantissa cs with
    | some m => some (sign * m)
    | none => none

/-- Python `float(v)` on a JSON value: numbers pass through, bools coerce
to 0/1, numeric strings parse, everything else raises
`TypeError`/`ValueError` (modelled as `none`). -/
def pyFloat : JsonVal → Option ℚ
  | JsonVal.num q => some q
  | JsonVal.bool b => some (if b then 1 else 0)
  | JsonVal.str s => parsePyFloat s
  | _ => none

/-- A normalized fractional bounding box (`_normalize_bbox`'s return
value when a box is kept). -/
structure BBox : Type where
  x_min : ℚ
  y_min : ℚ
  x_max : ℚ
  y_max : ℚ
  deriving DecidableEq, Repr

/-- `max(0.0, min(1.0, v))`, the coordinate clamp in `_normalize_bbox`. -/
def clamp01 (v : ℚ) : ℚ := max 0 (min 1 v)

/-- Python `round(v, 6)`.  Modelled with round-to-nearest on exact
rationals (CPython rounds the nearest-double value, with ties to even;
the difference only shows at exact half-ulp ties, which none of the
properties below depend on). -/
def roundTo6 (v : ℚ) : ℚ := (⌊v * 1000000 + 1 / 2⌋ : ℚ) / 1000000

/-- The parse phase of `_normalize_bbox`: require a dict, then coerce the
four required coordinates with `float(...)`; any missing or non-numeric
coordinate aborts (Python returns `None`). -/
def bboxParse (raw_bbox : JsonVal) : Option (ℚ × ℚ × ℚ × ℚ) :=
  match raw_bbox with
  | JsonVal.obj fields =>
    match (pyGet fields "x_min").bind pyFloat, (pyGet fields "y_min").bind pyFloat,
          (pyGet fields "x_max").bind pyFloat, (pyGet fields "y_max").bind pyFloat with
    | some x0, some y0, some x1, some y1 => some (x0, y0, x1, y1)
    | _, _, _, _ => none
  | _ => none

/-- `_normalize_bbox` (adjuster/index.py lines 225-252) on a present
`bbox` value: parse the four coordinates, clamp each to `[0,1]`, drop the
box when the clamped coordinates are degenerate or inverted, round kept
coordinates to six decimals. -/
def normalizeBboxVal (rb : JsonVal) : Option BBox :=
  match bboxParse rb with
  | none => none
  | some (px0, py0, px1, py1) =>
    let x_min := clamp01 px0
    let y_min := clamp01 py0
    let x_max := clamp01 px1
    let y_max := clamp01 py1
    if x_max ≤ x_min ∨ y_max ≤ y_min then none
    else some ⟨roundTo6 x_min, roundTo6 y_min, roundTo6 x_max, roundTo6 y_max⟩

/-- `_normalize_bbox` as called on `home.get("bbox")` (an absent value is
not a dict, so it yields no box). -/
def normalizeBbox (raw_bbox : Option JsonVal) : Option BBox :=
  match raw_bbox with
  | none => none
  | some rb => normalizeBboxVal rb

/-- One normalized per-structure record produced by
`_normalize_decisions`. -/
structure Home : Type where
  house_id : String
  decision : String
  has_5ft_inclusion_zone : Option JsonVal
  confidence : ℚ
  reason : String
  bbox : Option BBox

/-- The decision-normalization step of `_normalize_decisions` (lines
185-187): `str(...)` the raw value (absent → `""`), strip, lower-case,
and match against the two enum values; anything else becomes
`needs_human_review`. -/
def normDecisionStr (d : String) : String :=
  if d = "auto_approved" ∨ d = "needs_human_review" then d
  else "needs_human_review"

/-- `normDecisionStr` applied to the stripped, lower-cased `str()` of the
raw decision value (absent → `""`). -/
def normDecision (rawDecision : Option JsonVal) : String :=
  normDecisionStr (pyLower (pyStrip (pyStr (rawDecision.getD (JsonVal.str "")))))

/-- The confidence coercion of `_normalize_decisions` (lines 193-197):
`home.get("confidence", 0)` then `float(...)` with
`TypeError`/`ValueError` mapped to `0.0`. -/
def normConfidence (rawConfidence : Option JsonVal) : ℚ :=
  (pyFloat (rawConfidence.getD (JsonVal.num 0))).getD 0

/-- Python `f"\x7bidx:03d\x7d"`: decimal, left-padded with zeros to width
three. -/
def padIdx (idx : ℕ) : String :=
  let s := toString idx
  String.mk (List.replicate (3 - s.length) '0') ++ s

/-- The per-entry body of `_normalize_decisions`' loop, for a home entry
that is a dict with the given fields; `idx` is the 1-based enumeration
index used for the fallback identifier. -/
def normalizeHome (idx : ℕ) (fields : List (String × JsonVal)) : Home :=
  { house_id :=
      pyStr ((pyGet fields "house_id").getD
        (JsonVal.str ("house-" ++ padIdx idx)))
    decision := normDecision (pyGet fields "decision")
    has_5ft_inclusion_zone := pyGet fields "has_5ft_inclusion_zone"
    confidence := normConfidence (pyGet fields "confidence")
    reason := pyStr ((pyGet fields "reason").getD
      (JsonVal.str "No reason provided by model"))
    bbox := normalizeBbox (pyGet fields "bbox") }

/-- The summary block `_normalize_decisions` computes from the normalized
list (lines 212-220). -/
structure Summary : Type where
  total_homes : ℕ
  auto_approved_count : ℕ
  needs_human_review_count : ℕ
  deriving DecidableEq, Repr

/-- Return value of `_normalize_decisions`. -/
structure Normalized : Type where
  summary : Summary
  homes : List Home

/-- `for idx, home in enumerate(homes, start=1)`: Python iteration over
the `homes` value.  Lists yield their items; a non-empty string or dict
would yield elements on which `.get` raises `AttributeError`; empty
iterables yield nothing; other values raise `TypeError`. -/
def homesIter : JsonVal → Except String (List JsonVal)
  | JsonVal.arr xs => Except.ok xs
  | JsonVal.str s =>
    if s.isEmpty then Except.ok []
    else Except.error "AttributeError: home entry has no attribute get"
  | JsonVal.obj fields =>
    if fields.isEmpty then Except.ok []
    else Except.error "AttributeError: home entry has no attribute get"
  | _ => Except.error "TypeError: homes object is not iterable"

/-- The loop of `_normalize_decisions`: each entry must be a dict (any
other entry raises `AttributeError` at `home.get`). -/
def normalizeHomesList : ℕ → List JsonVal → Except String (List Home)
  | _, [] => Except.ok []
  | idx, JsonVal.obj fields :: rest =>
    match normalizeHomesList (idx + 1) rest with
    | Except.ok hs => Except.ok (normalizeHome idx fields :: hs)
    | Except.error e => Except.error e
  | _, _ :: _ => Except.error "AttributeError: home entry has no attribute get"

/-- `raw.get("homes", []) if isinstance(raw, dict) else []`. -/
def homesValOf (raw : JsonVal) : JsonVal :=
  match raw with
  | JsonVal.obj fields => (pyGet fields "homes").getD (JsonVal.arr [])
  | _ => JsonVal.arr []

/-- `_normalize_decisions` (adjuster/index.py lines 180-222): read the
`homes` list (absent key or non-dict input defaults to the empty list),
normalize each entry in order with 1-based fallback identifiers, then
compute the summary by filtering the normalized list. -/
def normalizeDecisions (raw : JsonVal) : Except String Normalized :=
  match homesIter (homesValOf raw) with
  | Except.error e => Except.error e
  | Except.ok items =>
    match normalizeHomesList 1 items with
    | Except.error e => Except.error e
    | Except.ok normalized =>
      Except.ok
        { summary :=
            { total_homes := normalized.length
              auto_approved_count :=
                (normalized.filter (fun h => h.decision = "auto_approved")).length
              needs_human_review_count :=
                (normalized.filter (fun h => h.decision = "needs_human_review")).length }
          homes := normalized }

/-! ### Helper lemmas about the decision normalizer -/

/-- Every normalized decision is one of the two enum tokens. -/
lemma normDecisionStr_mem (d : String) :
    normDecisionStr d = "auto_approved" ∨ normDecisionStr d = "needs_human_review" := by
  unfold normDecisionStr
  split
  · rename_i h
    rcases h with h | h
    · exact Or.inl h
    · exact Or.inr h
  · exact Or.inr rfl

lemma normDecision_mem (v : Option JsonVal) :
    normDecision v = "auto_approved" ∨ normDecision v = "needs_human_review" :=
  normDecisionStr_mem _

/-- Every home in a successful `normalizeDecisions` output is
`normalizeHome` applied to some entry. -/
lemma normalizeHomesList_mem {idx : ℕ} {items : List JsonVal} {hs : List Home}
    (hok : normalizeHomesList idx items = Except.ok hs) :
    ∀ h ∈ hs, ∃ i fields, h = normalizeHome i fields := by
  induction items generalizing idx hs with
  | nil =>
    simp only [normalizeHomesList] at hok
    cases hok
    intro h hmem
    cases hmem
  | cons x rest ih =>
    cases x with
    | obj fields =>
      simp only [normalizeHomesList] at hok
      cases hrest : normalizeHomesList (idx + 1) rest with
      | ok hs' =>
        rw [hrest] at hok
        cases hok
        intro h hmem
        rcases List.mem_cons.mp hmem with hm | hm
        · exact ⟨idx, fields, hm⟩
        · exact ih hrest h hm
      | error e =>
        rw [hrest] at hok
        cases hok
    | null => exact Except.noConfusion hok
    | bool b => exact Except.noConfusion hok
    | num q => exact Except.noConfusion hok
    | str s => exact Except.noConfusion hok
    | arr xs => exact Except.noConfusion hok

lemma normalizeDecisions_homes_mem {raw : JsonVal} {n : Normalized}
    (hok : normalizeDecisions raw = Except.ok n) :
    ∀ h ∈ n.homes, ∃ i fields, h = normalizeHome i fields := by
  unfold normalizeDecisions at hok
  split at hok
  · exact Except.noConfusion hok
  · split at hok
    · exact Except.noConfusion hok
    · rename_i normalized hlist
      cases hok
      exact normalizeHomesList_mem hlist

/-! ### C1: decision-field canonicalization -/

/-- C1: every home entry normalized by `_normalize_decisions` carries a
decision that is one of the two canonical strings `auto_approved` and
`needs_human_review`; the raw decision value is lower-cased (after
`str()` and strip) before matching, so any raw value whose lower-cased
form is not one of the two canonical strings — junk strings, the empty
string, or an absent field — maps to `needs_human_review`, while case
variants of the canonical strings match case-insensitively. -/
theorem decision_field_canonicalization :
    (∀ (raw : JsonVal) (n : Normalized), normalizeDecisions raw = Except.ok n →
      ∀ h ∈ n.homes,
        h.decision = "auto_approved" ∨ h.decision = "needs_human_review") ∧
    (∀ v : Option JsonVal,
      pyLower (pyStrip (pyStr (v.getD (JsonVal.str "")))) ≠ "auto_approved" →
      pyLower (pyStrip (pyStr (v.getD (JsonVal.str "")))) ≠ "needs_human_review" →
      normDecision v = "needs_human_review") ∧
    (∀ s : String, normDecision (some (JsonVal.str s)) = "auto_approved" ↔
      pyLower (pyStrip s) = "auto_approved") ∧
    normDecision none = "needs_human_review" := by
  refine ⟨?_, ?_, ?_, ?_⟩
  · intro raw n hok h hmem
    obtain ⟨i, fields, rfl⟩ := normalizeDecisions_homes_mem hok h hmem
    exact normDecision_mem (pyGet fields "decision")
  · intro v h1 h2
    unfold normDecision normDecisionStr
    rw [if_neg]
    rintro (h | h)
    · exact h1 h
    · exact h2 h
  · intro s
    unfold normDecision normDecisionStr
    constructor
    · intro h
      by_cases hc : pyLower (pyStrip (pyStr ((some (JsonVal.str s)).getD
          (JsonVal.str "")))) = "auto_approved" ∨
          pyLower (pyStrip (pyStr ((some (JsonVal.str s)).getD
            (JsonVal.str "")))) = "needs_human_review"
      · rw [if_pos hc] at h
        exact h
      · rw [if_neg hc] at h
        exact absurd h (by decide)
    · intro h
      have hc : pyLower (pyStrip (pyStr ((some (JsonVal.str s)).getD
          (JsonVal.str "")))) = "auto_approved" ∨
          pyLower (pyStrip (pyStr ((some (JsonVal.str s)).getD
            (JsonVal.str "")))) = "needs_human_review" := Or.inl h
      rw [if_pos hc]
      exact h
  · decide

/-- Witness for C1 at concrete inputs: a junk decision string maps to
`needs_human_review`. -/
theorem decision_field_canonicalization_witness :
    normDecision (some (JsonVal.str "Unknown")) = "needs_human_review" :=
  decision_field_canonicalization.2.1 (some (JsonVal.str "Unknown"))
    (by decide) (by decide)

/-! ### C3: confidence coercion -/

/-- C3 counterexample: the claim says every normalized confidence lies in
`[0,1]`, but the code performs no range clamp — a raw numeric confidence
of `2` is kept as `2`, which exceeds `1`. -/
theorem confidence_range_counterexample :
    (normalizeHome 1 [("confidence", JsonVal.num 2)]).confidence = 2 ∧
    ¬ (normalizeHome 1 [("confidence", JsonVal.num 2)]).confidence ≤ 1 := by
  decide

/-- C3 (amended): the normalized confidence equals `float(raw)` when the
coercion succeeds and `0.0` when the raw value is non-numeric or missing;
no `[0,1]` range restriction is applied. -/
theorem confidence_coercion (idx : ℕ) (fields : List (String × JsonVal)) :
    (pyFloat ((pyGet fields "confidence").getD (JsonVal.num 0)) = none →
      (normalizeHome idx fields).confidence = 0) ∧
    (∀ q : ℚ, pyFloat ((pyGet fields "confidence").getD (JsonVal.num 0)) = some q →
      (normalizeHome idx fields).confidence = q) ∧
    (pyGet fields "confidence" = none →
      (normalizeHome idx fields).confidence = 0) := by
  refine ⟨?_, ?_, ?_⟩
  · intro h
    simp [normalizeHome, normConfidence, h]
  · intro q h
    simp [normalizeHome, normConfidence, h]
  · intro h
    simp [normalizeHome, normConfidence, h, pyFloat]

/-- Witness for C3 at concrete inputs: a non-numeric confidence string
coerces to `0.0`. -/
theorem confidence_coercion_witness :
    (normalizeHome 1 [("confidence", JsonVal.str "abc")]).confidence = 0 :=
  (confidence_coercion 1 [("confidence", JsonVal.str "abc")]).1 (by decide)

/-! ### C2: bounding-box validation -/

lemma clamp01_nonneg (v : ℚ) : 0 ≤ clamp01 v := le_max_left 0 _

lemma clamp01_le_one (v : ℚ) : clamp01 v ≤ 1 :=
  max_le (by norm_num) (min_le_left 1 v)

lemma roundTo6_mono {p q : ℚ} (h : p ≤ q) : roundTo6 p ≤ roundTo6 q := by
  unfold roundTo6
  have hf : ⌊p * 1000000 + 1 / 2⌋ ≤ ⌊q * 1000000 + 1 / 2⌋ := by
    apply Int.floor_le_floor
    have : p * 1000000 ≤ q * 1000000 := by nlinarith
    linarith
  have hc : ((⌊p * 1000000 + 1 / 2⌋ : ℤ) : ℚ) ≤ ((⌊q * 1000000 + 1 / 2⌋ : ℤ) : ℚ) := by
    exact_mod_cast hf
  linarith

lemma roundTo6_zero : roundTo6 0 = 0 := by
  unfold roundTo6
  rw [show (0 : ℚ) * 1000000 + 1 / 2 = 1 / 2 by ring,
    show ⌊(1 / 2 : ℚ)⌋ = 0 by rw [Int.floor_eq_iff] <;> norm_num]
  norm_num

lemma roundTo6_one : roundTo6 1 = 1 := by
  unfold roundTo6
  rw [show (1 : ℚ) * 1000000 + 1 / 2 = 1000000 + 1 / 2 by ring,
    show ⌊(1000000 + 1 / 2 : ℚ)⌋ = 1000000 by rw [Int.floor_eq_iff] <;> norm_num]
  norm_num

/-- Evaluation rule for `normalizeBbox` when the parse succeeds and the
clamped coordinates are strictly ordered. -/
lemma normalizeBbox_eval {rb : JsonVal} {x0 y0 x1 y1 : ℚ}
    (hp : bboxParse rb = some (x0, y0, x1, y1))
    (hx : clamp01 x0 < clamp01 x1) (hy : clamp01 y0 < clamp01 y1) :
    normalizeBbox (some rb) =
      some ⟨roundTo6 (clamp01 x0), roundTo6 (clamp01 y0),
        roundTo6 (clamp01 x1), roundTo6 (clamp01 y1)⟩ := by
  show normalizeBboxVal rb = _
  unfold normalizeBboxVal
  rw [hp]
  show (if clamp01 x1 ≤ clamp01 x0 ∨ clamp01 y1 ≤ clamp01 y0 then none
    else some (⟨roundTo6 (clamp01 x0), roundTo6 (clamp01 y0),
      roundTo6 (clamp01 x1), roundTo6 (clamp01 y1)⟩ : BBox)) =
    some (⟨roundTo6 (clamp01 x0), roundTo6 (clamp01 y0),
      roundTo6 (clamp01 x1), roundTo6 (clamp01 y1)⟩ : BBox)
  rw [if_neg]
  rintro (h | h)
  · exact absurd hx (not_lt.mpr h)
  · exact absurd hy (not_lt.mpr h)

lemma clamp01_of_mem {v : ℚ} (h0 : 0 ≤ v) (h1 : v ≤ 1) : clamp01 v = v := by
  unfold clamp01
  rw [min_eq_right h1, max_eq_right h0]

/-- C2 counterexample: the claim requires every kept box to satisfy
`x_min < x_max` and every input violating the `[0,1]` range constraints
to be dropped.  The raw box below has `y_min = -3/10 < 0`, yet it is
clamped and kept; and after the 6-decimal rounding its kept coordinates
satisfy `x_min = x_max = 1/10`, not `x_min < x_max`. -/
theorem bbox_validation_counterexample :
    normalizeBbox (some (JsonVal.obj
        [("x_min", JsonVal.num (1 / 10)), ("y_min", JsonVal.num (-(3 / 10))),
         ("x_max", JsonVal.num (1000001 / 10000000)), ("y_max", JsonVal.num (1 / 2))]))
      = some ⟨1 / 10, 0, 1 / 10, 1 / 2⟩ ∧
    ¬ ((0 : ℚ) ≤ -(3 / 10)) ∧
    ¬ ((1 / 10 : ℚ) < 1 / 10) := by
  refine ⟨?_, by norm_num, by norm_num⟩
  have hp : bboxParse (JsonVal.obj
      [("x_min", JsonVal.num (1 / 10)), ("y_min", JsonVal.num (-(3 / 10))),
       ("x_max", JsonVal.num (1000001 / 10000000)), ("y_max", JsonVal.num (1 / 2))]) =
      some (1 / 10, -(3 / 10), 1000001 / 10000000, 1 / 2) := by
    simp [bboxParse, pyGet, pyFloat]
  have hc0 : clamp01 (1 / 10 : ℚ) = 1 / 10 := clamp01_of_mem (by norm_num) (by norm_num)
  have hc1 : clamp01 (-(3 / 10) : ℚ) = 0 := by
    unfold clamp01
    rw [min_eq_right (by norm_num), max_eq_left (by norm_num)]
  have hc2 : clamp01 (1000001 / 10000000 : ℚ) = 1000001 / 10000000 :=
    clamp01_of_mem (by norm_num) (by norm_num)
  have hc3 : clamp01 (1 / 2 : ℚ) = 1 / 2 := clamp01_of_mem (by norm_num) (by norm_num)
  rw [normalizeBbox_eval hp (by rw [hc0, hc2]; norm_num) (by rw [hc1, hc3]; norm_num)]
  rw [hc0, hc1, hc2, hc3]
  have hr0 : roundTo6 (1 / 10 : ℚ) = 1 / 10 := by
    unfold roundTo6
    rw [show (1 / 10 : ℚ) * 1000000 + 1 / 2 = 100000 + 1 / 2 by ring,
      show ⌊(100000 + 1 / 2 : ℚ)⌋ = 100000 by rw [Int.floor_eq_iff] <;> norm_num]
    norm_num
  have hr2 : roundTo6 (1000001 / 10000000 : ℚ) = 1 / 10 := by
    unfold roundTo6
    rw [show (1000001 / 10000000 : ℚ) * 1000000 + 1 / 2 = 100000 + 6 / 10 by ring,
      show ⌊(100000 + 6 / 10 : ℚ)⌋ = 100000 by rw [Int.floor_eq_iff] <;> norm_num]
    norm_num
  have hr3 : roundTo6 (1 / 2 : ℚ) = 1 / 2 := by
    unfold roundTo6
    rw [show (1 / 2 : ℚ) * 1000000 + 1 / 2 = 500000 + 1 / 2 by ring,
      show ⌊(500000 + 1 / 2 : ℚ)⌋ = 500000 by rw [Int.floor_eq_iff] <;> norm_num]
    norm_num
  rw [hr0, hr2, hr3, roundTo6_zero]

/-- C2 (amended): each parsed coordinate is clamped to `[0,1]`; the box
is dropped exactly when the parse fails or the clamped coordinates are
degenerate or inverted (so out-of-range coordinates are clamped, not
dropped); a kept box is the clamped box rounded to six decimals and
satisfies `0 ≤ x_min ≤ x_max ≤ 1` and `0 ≤ y_min ≤ y_max ≤ 1` (strict
inequality holds before rounding but rounding may merge the two
endpoints). -/
theorem bbox_validation (raw : JsonVal) :
    (∀ b, normalizeBbox (some raw) = some b →
      0 ≤ b.x_min ∧ b.x_min ≤ b.x_max ∧ b.x_max ≤ 1 ∧
      0 ≤ b.y_min ∧ b.y_min ≤ b.y_max ∧ b.y_max ≤ 1) ∧
    (∀ x0 y0 x1 y1, bboxParse raw = some (x0, y0, x1, y1) →
      ((clamp01 x1 ≤ clamp01 x0 ∨ clamp01 y1 ≤ clamp01 y0) →
        normalizeBbox (some raw) = none) ∧
      (clamp01 x0 < clamp01 x1 → clamp01 y0 < clamp01 y1 →
        normalizeBbox (some raw) =
          some ⟨roundTo6 (clamp01 x0), roundTo6 (clamp01 y0),
            roundTo6 (clamp01 x1), roundTo6 (clamp01 y1)⟩)) ∧
    (bboxParse raw = none → normalizeBbox (some raw) = none) ∧
    normalizeBbox none = none := by
  refine ⟨?_, ?_, ?_, rfl⟩
  · intro b hb
    replace hb : normalizeBboxVal raw = some b := hb
    unfold normalizeBboxVal at hb
    cases hp : bboxParse raw with
    | none => rw [hp] at hb; exact Option.noConfusion hb
    | some p =>
      obtain ⟨x0, y0, x1, y1⟩ := p
      rw [hp] at hb
      change (if clamp01 x1 ≤ clamp01 x0 ∨ clamp01 y1 ≤ clamp01 y0 then none
        else some (⟨roundTo6 (clamp01 x0), roundTo6 (clamp01 y0),
          roundTo6 (clamp01 x1), roundTo6 (clamp01 y1)⟩ : BBox)) = some b at hb
      by_cases hdeg : clamp01 x1 ≤ clamp01 x0 ∨ clamp01 y1 ≤ clamp01 y0
      · rw [if_pos hdeg] at hb
        exact Option.noConfusion hb
      · rw [if_neg hdeg] at hb
        push_neg at hdeg
        obtain ⟨hxlt, hylt⟩ := hdeg
        cases hb
        refine ⟨?_, ?_, ?_, ?_, ?_, ?_⟩
        · rw [show (0 : ℚ) = roundTo6 0 from roundTo6_zero.symm]
          exact roundTo6_mono (clamp01_nonneg x0)
        · exact roundTo6_mono hxlt.le
        · rw [show (1 : ℚ) = roundTo6 1 from roundTo6_one.symm]
          exact roundTo6_mono (clamp01_le_one x1)
        · rw [show (0 : ℚ) = roundTo6 0 from roundTo6_zero.symm]
          exact roundTo6_mono (clamp01_nonneg y0)
        · exact roundTo6_mono hylt.le
        · rw [show (1 : ℚ) = roundTo6 1 from roundTo6_one.symm]
          exact roundTo6_mono (clamp01_le_one y1)
  · intro x0 y0 x1 y1 hp
    constructor
    · intro hdeg
      show normalizeBboxVal raw = none
      unfold normalizeBboxVal
      rw [hp]
      change (if clamp01 x1 ≤ clamp01 x0 ∨ clamp01 y1 ≤ clamp01 y0 then none
        else some (⟨roundTo6 (clamp01 x0), roundTo6 (clamp01 y0),
          roundTo6 (clamp01 x1), roundTo6 (clamp01 y1)⟩ : BBox)) = none
      rw [if_pos hdeg]
    · intro hx hy
      exact normalizeBbox_eval hp hx hy
  · intro hp
    show normalizeBboxVal raw = none
    unfold normalizeBboxVal
    rw [hp]

/-- The full-frame raw box used as the C2 witness input. -/
def rawBox01 : JsonVal :=
  JsonVal.obj [("x_min", JsonVal.num 0), ("y_min", JsonVal.num 0),
               ("x_max", JsonVal.num 1), ("y_max", JsonVal.num 1)]

lemma rawBox01_eval : normalizeBbox (some rawBox01) = some ⟨0, 0, 1, 1⟩ := by
  have hp : bboxParse rawBox01 = some (0, 0, 1, 1) := by
    simp [rawBox01, bboxParse, pyGet, pyFloat]
  have hc0 : clamp01 (0 : ℚ) = 0 := clamp01_of_mem le_rfl zero_le_one
  have hc1 : clamp01 (1 : ℚ) = 1 := clamp01_of_mem zero_le_one le_rfl
  rw [normalizeBbox_eval hp (by rw [hc0, hc1]; norm_num) (by rw [hc0, hc1]; norm_num),
    hc0, hc1, roundTo6_zero, roundTo6_one]

/-- Witness for C2 at a concrete input: the kept full-frame box satisfies
the (non-strict) bound chain. -/
theorem bbox_validation_witness :
    0 ≤ (⟨0, 0, 1, 1⟩ : BBox).x_min ∧
    (⟨0, 0, 1, 1⟩ : BBox).x_min ≤ (⟨0, 0, 1, 1⟩ : BBox).x_max ∧
    (⟨0, 0, 1, 1⟩ : BBox).x_max ≤ 1 ∧
    0 ≤ (⟨0, 0, 1, 1⟩ : BBox).y_min ∧
    (⟨0, 0, 1, 1⟩ : BBox).y_min ≤ (⟨0, 0, 1, 1⟩ : BBox).y_max ∧
    (⟨0, 0, 1, 1⟩ : BBox).y_max ≤ 1 :=
  (bbox_validation rawBox01).1 ⟨0, 0, 1, 1⟩ rawBox01_eval

/-! ### C7: summary computed from the normalized list -/

/-- Python `d[k] = v` on a dict modelled as an association list. -/
def setKey : List (String × JsonVal) → String → JsonVal → List (String × JsonVal)
  | [], k, v => [(k, v)]
  | (k', v') :: rest, k, v =>
    if k' = k then (k, v) :: rest else (k', v') :: setKey rest k v

lemma pyGet_setKey_ne (fields : List (String × JsonVal)) (k k' : String) (v : JsonVal)
    (hne : k' ≠ k) : pyGet (setKey fields k' v) k = pyGet fields k := by
  induction fields with
  | nil => simp [setKey, pyGet, hne]
  | cons kv rest ih =>
    obtain ⟨k0, v0⟩ := kv
    by_cases h0 : k0 = k'
    · simp [setKey, h0, pyGet, hne]
    · simp only [setKey, if_neg h0, pyGet]
      by_cases h1 : k0 = k
      · simp [h1]
      · simp [h1, ih]

/-- Shape of a successful `_normalize_decisions` result: the summary
fields are recomputed from the normalized list. -/
lemma normalizeDecisions_ok_shape {raw : JsonVal} {n : Normalized}
    (hok : normalizeDecisions raw = Except.ok n) :
    n.summary.total_homes = n.homes.length ∧
    n.summary.auto_approved_count =
      (n.homes.filter (fun h => h.decision = "auto_approved")).length ∧
    n.summary.needs_human_review_count =
      (n.homes.filter (fun h => h.decision = "needs_human_review")).length := by
  unfold normalizeDecisions at hok
  split at hok
  · exact Except.noConfusion hok
  · split at hok
    · exact Except.noConfusion hok
    · cases hok
      exact ⟨rfl, rfl, rfl⟩

/-- A list of homes whose decisions all lie in the two-token enum splits
into the auto-approved part and the needs-review part. -/
lemma length_filter_decisions (hs : List Home)
    (hmem : ∀ h ∈ hs, h.decision = "auto_approved" ∨ h.decision = "needs_human_review") :
    hs.length = (hs.filter (fun h => h.decision = "auto_approved")).length +
      (hs.filter (fun h => h.decision = "needs_human_review")).length := by
  induction hs with
  | nil => simp
  | cons h rest ih =>
    have hrest := ih (fun h' hm => hmem h' (List.mem_cons_of_mem h hm))
    rcases hmem h (List.mem_cons_self h rest) with hd | hd
    · have hd' : ¬ h.decision = "needs_human_review" := by
        rw [hd]; decide
      simp [List.filter_cons, hd, hd']
      omega
    · have hd' : ¬ h.decision = "auto_approved" := by
        rw [hd]; decide
      simp [List.filter_cons, hd, hd']
      omega

/-- C7: the summary of a normalized result is computed by filtering the
normalized homes list — `total_homes` is its length, the two counts are
the lengths of the decision filters, and total = auto + review; the
model's own `summary` field has no influence on the result. -/
theorem summary_from_filtered_list :
    (∀ (raw : JsonVal) (n : Normalized), normalizeDecisions raw = Except.ok n →
      n.summary.total_homes = n.homes.length ∧
      n.summary.auto_approved_count =
        (n.homes.filter (fun h => h.decision = "auto_approved")).length ∧
      n.summary.needs_human_review_count =
        (n.homes.filter (fun h => h.decision = "needs_human_review")).length ∧
      n.summary.total_homes =
        n.summary.auto_approved_count + n.summary.needs_human_review_count) ∧
    (∀ (fields : List (String × JsonVal)) (s : JsonVal),
      normalizeDecisions (JsonVal.obj (setKey fields "summary" s)) =
        normalizeDecisions (JsonVal.obj fields)) := by
  constructor
  · intro raw n hok
    obtain ⟨ht, ha, hr⟩ := normalizeDecisions_ok_shape hok
    refine ⟨ht, ha, hr, ?_⟩
    rw [ht, ha, hr]
    apply length_filter_decisions
    intro h hm
    obtain ⟨i, f, rfl⟩ := normalizeDecisions_homes_mem hok h hm
    exact normDecision_mem _
  · intro fields s
    have hval : homesValOf (JsonVal.obj (setKey fields "summary" s)) =
        homesValOf (JsonVal.obj fields) := by
      show (pyGet (setKey fields "summary" s) "homes").getD (JsonVal.arr []) =
        (pyGet fields "homes").getD (JsonVal.arr [])
      rw [pyGet_setKey_ne fields "homes" "summary" s (by decide)]
    unfold normalizeDecisions
    rw [hval]

/-- Witness for C7 at a concrete input: one malformed home still yields a
coherent filtered summary. -/
theorem summary_from_filtered_list_witness :
    ({ total_homes := 1, auto_approved_count := 0,
       needs_human_review_count := 1 } : Summary).total_homes =
      [normalizeHome 1 []].length ∧
    ({ total_homes := 1, auto_approved_count := 0,
       needs_human_review_count := 1 } : Summary).auto_approved_count =
      ([normalizeHome 1 []].filter (fun h => h.decision = "auto_approved")).length ∧
    ({ total_homes := 1, auto_approved_count := 0,
       needs_human_review_count := 1 } : Summary).needs_human_review_count =
      ([normalizeHome 1 []].filter (fun h => h.decision = "needs_human_review")).length ∧
    ({ total_homes := 1, auto_approved_count := 0,
       needs_human_review_count := 1 } : Summary).total_homes =
      ({ total_homes := 1, auto_approved_count := 0,
         needs_human_review_count := 1 } : Summary).auto_approved_count +
      ({ total_homes := 1, auto_approved_count := 0,
         needs_human_review_count := 1 } : Summary).needs_human_review_count := by
  have h := summary_from_filtered_list.1
    (JsonVal.obj [("homes", JsonVal.arr [JsonVal.obj []])])
    ({ summary := ({ total_homes := 1, auto_approved_count := 0, needs_human_review_count := 1 } : Summary), homes := [normalizeHome 1 []] } : Normalized)
    rfl
  exact h

/-! ### C4: malformed reasoning-service output -/

/-- The code-fence stripping of `_invoke_bedrock` (line 171):
`model_text.replace("\x60\x60\x60json", "").replace("\x60\x60\x60", "").strip()`. -/
def stripFences (model_text : String) : String :=
  pyStrip ((model_text.replace "```json" "").replace "```" "")

/-- The parse-and-fail tail of `_invoke_bedrock` (lines 170-177):
`json.loads` on the cleaned text, raising `RuntimeError` when it cannot
be parsed.  The JSON grammar itself belongs to the standard library, so
the parser is abstracted as a function argument. -/
def bedrockParseTail (jsonLoads : String → Option JsonVal) (model_text : String) :
    Except String JsonVal :=
  match jsonLoads (stripFences model_text) with
  | some v => Except.ok v
  | none => Except.error "Bedrock response is not valid JSON"

/-- C4 counterexample: the claim says a parsed response that is missing
the top-level `homes` list makes the branch fail fatally, but
`_normalize_decisions` accepts the empty object `{}` and returns an empty
normalized result with a zero summary — no error is raised. -/
theorem malformed_response_counterexample :
    normalizeDecisions (JsonVal.obj []) =
      Except.ok ⟨⟨0, 0, 0⟩, []⟩ := rfl

/-- C4 (amended): output that cannot be parsed as JSON (after stripping
code fences) raises a fatal error, with no partial acceptance; but a
parsed response that is missing the top-level `homes` list (or is not an
object at all) is not fatal — the normalizer substitutes the empty list
and succeeds with a zero-count summary. -/
theorem malformed_response_handling (jsonLoads : String → Option JsonVal)
    (model_text : String) (fields : List (String × JsonVal)) :
    (jsonLoads (stripFences model_text) = none →
      bedrockParseTail jsonLoads model_text =
        Except.error "Bedrock response is not valid JSON") ∧
    (pyGet fields "homes" = none →
      normalizeDecisions (JsonVal.obj fields) =
        Except.ok ⟨⟨0, 0, 0⟩, []⟩) := by
  constructor
  · intro h
    unfold bedrockParseTail
    rw [h]
  · intro h
    have hval : homesValOf (JsonVal.obj fields) = JsonVal.arr [] := by
      show (pyGet fields "homes").getD (JsonVal.arr []) = JsonVal.arr []
      rw [h]
      rfl
    unfold normalizeDecisions
    rw [hval]
    rfl

/-- Witness for C4 at concrete inputs: an unparseable response errors and
a response with no `homes` key succeeds with the empty result. -/
theorem malformed_response_handling_witness :
    bedrockParseTail (fun _ => none) "not json at all" =
      Except.error "Bedrock response is not valid JSON" ∧
    normalizeDecisions (JsonVal.obj [("summary", JsonVal.num 3)]) =
      Except.ok ⟨⟨0, 0, 0⟩, []⟩ :=
  ⟨(malformed_response_handling (fun _ => none) "not json at all" []).1 rfl,
   (malformed_response_handling (fun _ => none) ""
      [("summary", JsonVal.num 3)]).2 rfl⟩

/-! ### C10: fractional-to-pixel conversion -/

/-- Python `int()` on a float: truncation toward zero. -/
def pyInt (q : ℚ) : ℤ := if 0 ≤ q then ⌊q⌋ else ⌈q⌉

/-- `_bbox_to_pixel_box` (adjuster/index.py lines 260-270): scale the
fractional coordinates by the image dimensions, truncate, then clamp so
the pixel box keeps positive width and height. -/
def bboxToPixelBox (bbox : BBox) (width height : ℤ) : ℤ × ℤ × ℤ × ℤ :=
  let left0 := pyInt (bbox.x_min * width)
  let top0 := pyInt (bbox.y_min * height)
  let right0 := pyInt (bbox.x_max * width)
  let bottom0 := pyInt (bbox.y_max * height)
  let left := max 0 (min (width - 1) left0)
  let top := max 0 (min (height - 1) top0)
  let right := max (left + 1) (min width right0)
  let bottom := max (top + 1) (min height bottom0)
  (left, top, right, bottom)

/-- C10: for a normalized (strictly ordered, `[0,1]`-ranged) fractional
box and positive image dimensions, the pixel box satisfies
`0 ≤ left < right ≤ width` and `0 ≤ top < bottom ≤ height` — it never
degenerates to zero width or height. -/
theorem pixel_box_nondegenerate (b : BBox) (width height : ℤ)
    (hw : 1 ≤ width) (hh : 1 ≤ height)
    (hx0 : 0 ≤ b.x_min) (hx : b.x_min < b.x_max) (hx1 : b.x_max ≤ 1)
    (hy0 : 0 ≤ b.y_min) (hy : b.y_min < b.y_max) (hy1 : b.y_max ≤ 1) :
    0 ≤ (bboxToPixelBox b width height).1 ∧
    (bboxToPixelBox b width height).1 < (bboxToPixelBox b width height).2.2.1 ∧
    (bboxToPixelBox b width height).2.2.1 ≤ width ∧
    0 ≤ (bboxToPixelBox b width height).2.1 ∧
    (bboxToPixelBox b width height).2.1 < (bboxToPixelBox b width height).2.2.2 ∧
    (bboxToPixelBox b width height).2.2.2 ≤ height := by
  unfold bboxToPixelBox
  set left0 := pyInt (b.x_min * width) with hL0
  set top0 := pyInt (b.y_min * height) with hT0
  set right0 := pyInt (b.x_max * width) with hR0
  set bottom0 := pyInt (b.y_max * height) with hB0
  simp only []
  set left := max 0 (min (width - 1) left0) with hL
  set top := max 0 (min (height - 1) top0) with hT
  have hleft0 : 0 ≤ left := le_max_left 0 _
  have hleftw : left ≤ width - 1 := by
    rw [hL]
    apply max_le (by omega) (min_le_left _ _)
  have htop0 : 0 ≤ top := le_max_left 0 _
  have htoph : top ≤ height - 1 := by
    rw [hT]
    apply max_le (by omega) (min_le_left _ _)
  refine ⟨hleft0, ?_, ?_, htop0, ?_, ?_⟩
  · calc left < left + 1 := by omega
      _ ≤ max (left + 1) (min width right0) := le_max_left _ _
  · apply max_le (by omega) (min_le_left _ _)
  · calc top < top + 1 := by omega
      _ ≤ max (top + 1) (min height bottom0) := le_max_left _ _
  · apply max_le (by omega) (min_le_left _ _)

/-- Witness for C10 at a concrete input: the full-frame box on a 1×1
image maps to the pixel box (0, 0, 1, 1). -/
theorem pixel_box_nondegenerate_witness :
    0 ≤ (bboxToPixelBox ⟨0, 0, 1, 1⟩ 1 1).1 ∧
    (bboxToPixelBox ⟨0, 0, 1, 1⟩ 1 1).1 < (bboxToPixelBox ⟨0, 0, 1, 1⟩ 1 1).2.2.1 ∧
    (bboxToPixelBox ⟨0, 0, 1, 1⟩ 1 1).2.2.1 ≤ 1 ∧
    0 ≤ (bboxToPixelBox ⟨0, 0, 1, 1⟩ 1 1).2.1 ∧
    (bboxToPixelBox ⟨0, 0, 1, 1⟩ 1 1).2.1 < (bboxToPixelBox ⟨0, 0, 1, 1⟩ 1 1).2.2.2 ∧
    (bboxToPixelBox ⟨0, 0, 1, 1⟩ 1 1).2.2.2 ≤ 1 :=
  pixel_box_nondegenerate ⟨0, 0, 1, 1⟩ 1 1 (by decide) (by decide)
    (by decide) (by decide) (by decide) (by decide) (by decide) (by decide)

/-! ### C6: mask-overlap evaluator -/

/-- Python `min(list)` on a non-empty list (the guard in
`_calculate_overlap` makes the empty case unreachable; `0` stands in for
the `ValueError` Python would raise there). -/
def listMin : List ℚ → ℚ
  | [] => 0
  | x :: xs => xs.foldl min x

/-- Python `max(list)` on a non-empty list. -/
def listMax : List ℚ → ℚ
  | [] => 0
  | x :: xs => xs.foldl max x

/-- The 4-tuple `(min(xs), min(ys), max(xs), max(ys))` computed for each
mask in `_calculate_overlap`. -/
structure MaskBox : Type where
  xmin : ℚ
  ymin : ℚ
  xmax : ℚ
  ymax : ℚ

def maskBBox (mask : List (ℚ × ℚ)) : MaskBox :=
  ⟨listMin (mask.map Prod.fst), listMin (mask.map Prod.snd),
   listMax (mask.map Prod.fst), listMax (mask.map Prod.snd)⟩

/-- The intersection-over-union computation of `_calculate_overlap`
(inference.py lines 148-182) on the two bounding boxes: returns 0 when
the intersection rectangle is empty, otherwise intersection area over
union area (0 when the union area is not positive). -/
def overlapFromBoxes (b1 b2 : MaskBox) : ℚ :=
  let ix1 := max b1.xmin b2.xmin
  let iy1 := max b1.ymin b2.ymin
  let ix2 := min b1.xmax b2.xmax
  let iy2 := min b1.ymax b2.ymax
  if ix2 ≤ ix1 ∨ iy2 ≤ iy1 then 0
  else
    let ia := (ix2 - ix1) * (iy2 - iy1)
    let a1 := (b1.xmax - b1.xmin) * (b1.ymax - b1.ymin)
    let a2 := (b2.xmax - b2.xmin) * (b2.ymax - b2.ymin)
    let ua := a1 + a2 - ia
    if 0 < ua then ia / ua else 0

/-- `_calculate_overlap`: 0 when either mask is empty, otherwise the
box-overlap of the two bounding boxes. -/
def calculateOverlap (mask1 mask2 : List (ℚ × ℚ)) : ℚ :=
  if mask1 = [] ∨ mask2 = [] then 0
  else overlapFromBoxes (maskBBox mask1) (maskBBox mask2)

/-- A point of the closed bounding region of a mask box. -/
def inBox (b : MaskBox) (p : ℚ × ℚ) : Prop :=
  b.xmin ≤ p.1 ∧ p.1 ≤ b.xmax ∧ b.ymin ≤ p.2 ∧ p.2 ≤ b.ymax

lemma overlapFromBoxes_sep (b1 b2 : MaskBox)
    (h : min b1.xmax b2.xmax ≤ max b1.xmin b2.xmin ∨
      min b1.ymax b2.ymax ≤ max b1.ymin b2.ymin) :
    overlapFromBoxes b1 b2 = 0 := by
  unfold overlapFromBoxes
  exact if_pos h

lemma overlapFromBoxes_self (b : MaskBox) (hx : b.xmin < b.xmax)
    (hy : b.ymin < b.ymax) : overlapFromBoxes b b = 1 := by
  have hA : 0 < (b.xmax - b.xmin) * (b.ymax - b.ymin) :=
    mul_pos (sub_pos.mpr hx) (sub_pos.mpr hy)
  unfold overlapFromBoxes
  rw [max_self, max_self, min_self, min_self]
  rw [if_neg (by
    rintro (h | h)
    · exact absurd hx (not_lt.mpr h)
    · exact absurd hy (not_lt.mpr h))]
  show (if 0 < (b.xmax - b.xmin) * (b.ymax - b.ymin) +
      (b.xmax - b.xmin) * (b.ymax - b.ymin) -
      (b.xmax - b.xmin) * (b.ymax - b.ymin) then
    ((b.xmax - b.xmin) * (b.ymax - b.ymin)) /
      ((b.xmax - b.xmin) * (b.ymax - b.ymin) +
        (b.xmax - b.xmin) * (b.ymax - b.ymin) -
        (b.xmax - b.xmin) * (b.ymax - b.ymin))
    else 0) = 1
  rw [if_pos (by linarith)]
  have hu : (b.xmax - b.xmin) * (b.ymax - b.ymin) +
      (b.xmax - b.xmin) * (b.ymax - b.ymin) -
      (b.xmax - b.xmin) * (b.ymax - b.ymin) =
      (b.xmax - b.xmin) * (b.ymax - b.ymin) := by ring
  rw [hu]
  exact div_self hA.ne'

lemma overlapFromBoxes_comm (b1 b2 : MaskBox) :
    overlapFromBoxes b1 b2 = overlapFromBoxes b2 b1 := by
  unfold overlapFromBoxes
  dsimp only
  rw [max_comm b2.xmin b1.xmin, max_comm b2.ymin b1.ymin,
    min_comm b2.xmax b1.xmax, min_comm b2.ymax b1.ymax,
    add_comm ((b2.xmax - b2.xmin) * (b2.ymax - b2.ymin))
      ((b1.xmax - b1.xmin) * (b1.ymax - b1.ymin))]

/-- C6 counterexample: the claim asserts the overlap of any two identical
non-empty point sets is 1.0, but a single-point mask compared with itself
has a degenerate (zero-area) bounding box, so the evaluator returns 0. -/
theorem overlap_identity_counterexample :
    calculateOverlap [((0 : ℚ), (0 : ℚ))] [((0 : ℚ), (0 : ℚ))] = 0 ∧
    ((0 : ℚ) ≠ 1) := by
  constructor
  · unfold calculateOverlap
    rw [if_neg (by simp)]
    exact overlapFromBoxes_sep _ _ (Or.inl (by unfold maskBBox listMin listMax; simp))
  · norm_num

/-- C6 (amended): the overlap of two identical non-empty masks whose
bounding box has positive width and height is `1`; identical masks with a
degenerate bounding box evaluate to `0`; two masks whose bounding regions
share no point evaluate to `0`; and the evaluator is commutative. -/
theorem overlap_evaluator (m1 m2 : List (ℚ × ℚ)) :
    (m1 ≠ [] → (maskBBox m1).xmin < (maskBBox m1).xmax →
      (maskBBox m1).ymin < (maskBBox m1).ymax → calculateOverlap m1 m1 = 1) ∧
    (m1 ≠ [] → ((maskBBox m1).xmax ≤ (maskBBox m1).xmin ∨
      (maskBBox m1).ymax ≤ (maskBBox m1).ymin) → calculateOverlap m1 m1 = 0) ∧
    ((∀ p : ℚ × ℚ, ¬ (inBox (maskBBox m1) p ∧ inBox (maskBBox m2) p)) →
      calculateOverlap m1 m2 = 0) ∧
    calculateOverlap m1 m2 = calculateOverlap m2 m1 := by
  refine ⟨?_, ?_, ?_, ?_⟩
  · intro hne hx hy
    unfold calculateOverlap
    rw [if_neg (by simp [hne])]
    exact overlapFromBoxes_self _ hx hy
  · intro hne hdeg
    unfold calculateOverlap
    rw [if_neg (by simp [hne])]
    apply overlapFromBoxes_sep
    rcases hdeg with h | h
    · exact Or.inl (by rw [min_self, max_self]; exact h)
    · exact Or.inr (by rw [min_self, max_self]; exact h)
  · intro hdisj
    unfold calculateOverlap
    by_cases hg : m1 = [] ∨ m2 = []
    · rw [if_pos hg]
    · rw [if_neg hg]
      apply overlapFromBoxes_sep
      by_contra hc
      push_neg at hc
      obtain ⟨hx, hy⟩ := hc
      apply hdisj (max (maskBBox m1).xmin (maskBBox m2).xmin,
        max (maskBBox m1).ymin (maskBBox m2).ymin)
      refine ⟨⟨le_max_left _ _, ?_, le_max_left _ _, ?_⟩,
        ⟨le_max_right _ _, ?_, le_max_right _ _, ?_⟩⟩
      · exact le_trans hx.le (min_le_left _ _)
      · exact le_trans hy.le (min_le_left _ _)
      · exact le_trans hx.le (min_le_right _ _)
      · exact le_trans hy.le (min_le_right _ _)
  · unfold calculateOverlap
    by_cases h1 : m1 = []
    · by_cases h2 : m2 = [] <;> simp [h1, h2]
    · by_cases h2 : m2 = []
      · simp [h1, h2]
      · rw [if_neg (by simp [h1, h2]), if_neg (by simp [h1, h2])]
        exact overlapFromBoxes_comm _ _

/-- Witness for C6 at a concrete input: a two-point mask with a proper
bounding box has overlap 1 with itself. -/
theorem overlap_evaluator_witness :
    calculateOverlap [((0 : ℚ), (0 : ℚ)), ((1 : ℚ), (1 : ℚ))]
      [((0 : ℚ), (0 : ℚ)), ((1 : ℚ), (1 : ℚ))] = 1 :=
  (overlap_evaluator [((0 : ℚ), (0 : ℚ)), ((1 : ℚ), (1 : ℚ))] []).1
    (by decide) (by decide) (by decide)

/-! ### C5: size-fitting transform -/

/-- The image-manipulation capabilities `resize_image` relies on
(Pillow's `Image.open`, `convert("RGB").save(..., "JPEG", quality)`,
`resize`, `size`).  The codecs are external libraries, so they are
abstracted; the byte strings they exchange are lists of bytes. -/
structure Codec (Img : Type) : Type where
  decode : List ℕ → Option Img
  encodeJPEG : Img → ℕ → List ℕ
  resize : Img → ℕ × ℕ → Img
  size : Img → ℕ × ℕ

/-- The quality ladder of `resize_image`: try JPEG at each quality and
return the first encoding that fits the ceiling. -/
def tryQualities {Img : Type} (c : Codec Img) (img : Img) (maxB : ℕ) :
    List ℕ → Option (List ℕ)
  | [] => none
  | q :: rest =>
    let buf := c.encodeJPEG img q
    if buf.length ≤ maxB then some buf else tryQualities c img maxB rest

/-- The `while True` downscale loop of `resize_image`: shrink both
dimensions by the factor 0.8 (`int(width * 0.8)`, modelled as the
rational floor `w * 4 / 5`), re-encode at quality 70, and stop once the
encoding fits.  The loop has no iteration cap in the source; the fuel
argument makes the model total, with `none` standing for a run that has
not returned after `fuel` iterations. -/
def downscaleLoop {Img : Type} (c : Codec Img) (maxB : ℕ) :
    ℕ → Img → Option (List ℕ)
  | 0, _ => none
  | fuel + 1, img =>
    let wh := c.size img
    let img2 := c.resize img (wh.1 * 4 / 5, wh.2 * 4 / 5)
    let buf := c.encodeJPEG img2 70
    if buf.length ≤ maxB then some buf else downscaleLoop c maxB fuel img2

/-- `resize_image` (processor/index.py lines 64-85, duplicated as
`_resize_image` in adjuster/index.py lines 109-130): inputs within the
byte ceiling pass through untouched; larger inputs are decoded and
re-encoded at decreasing JPEG quality, then repeatedly downscaled until
the encoding fits.  A decode failure propagates as an exception
(`none`). -/
def resize_image {Img : Type} (c : Codec Img) (fuel : ℕ) (image_bytes : List ℕ)
    (max_size_bytes : ℕ) : Option (List ℕ) :=
  if image_bytes.length ≤ max_size_bytes then some image_bytes
  else
    match c.decode image_bytes with
    | none => none
    | some img =>
      match tryQualities c img max_size_bytes [85, 70, 50, 30] with
      | some buf => some buf
      | none => downscaleLoop c max_size_bytes fuel img

lemma tryQualities_fits {Img : Type} (c : Codec Img) (img : Img) (maxB : ℕ)
    (qs : List ℕ) {out : List ℕ} (h : tryQualities c img maxB qs = some out) :
    out.length ≤ maxB ∧ ∃ q, out = c.encodeJPEG img q := by
  induction qs with
  | nil => exact Option.noConfusion h
  | cons q rest ih =>
    unfold tryQualities at h
    by_cases hle : (c.encodeJPEG img q).length ≤ maxB
    · rw [if_pos hle] at h
      cases h
      exact ⟨hle, q, rfl⟩
    · rw [if_neg hle] at h
      exact ih h

lemma downscaleLoop_fits {Img : Type} (c : Codec Img) (maxB : ℕ) (fuel : ℕ)
    (img : Img) {out : List ℕ} (h : downscaleLoop c maxB fuel img = some out) :
    out.length ≤ maxB ∧ ∃ i q, out = c.encodeJPEG i q := by
  induction fuel generalizing img with
  | zero => exact Option.noConfusion h
  | succ n ih =>
    unfold downscaleLoop at h
    by_cases hle : (c.encodeJPEG (c.resize img
        ((c.size img).1 * 4 / 5, (c.size img).2 * 4 / 5)) 70).length ≤ maxB
    · rw [if_pos hle] at h
      cases h
      exact ⟨hle, _, 70, rfl⟩
    · rw [if_neg hle] at h
      exact ih _ h

/-- C5: for input within the byte ceiling, the transform returns the
input bytes unchanged; whenever the transform returns for input above
the ceiling, the output fits the ceiling and is a codec-produced (hence
decodable) encoding.  Termination of the uncapped downscale loop is
modelled by fuel: the guarantees hold for every run that returns. -/
theorem resize_image_size_fit {Img : Type} (c : Codec Img) (fuel : ℕ)
    (image_bytes out : List ℕ) (maxB : ℕ) :
    (image_bytes.length ≤ maxB →
      resize_image c fuel image_bytes maxB = some image_bytes) ∧
    (resize_image c fuel image_bytes maxB = some out → out.length ≤ maxB) ∧
    (maxB < image_bytes.length → resize_image c fuel image_bytes maxB = some out →
      ∃ i q, out = c.encodeJPEG i q) ∧
    ((∀ i q, (c.decode (c.encodeJPEG i q)).isSome) →
      maxB < image_bytes.length → resize_image c fuel image_bytes maxB = some out →
      (c.decode out).isSome) := by
  have hbig : ¬ image_bytes.length ≤ maxB →
      resize_image c fuel image_bytes maxB = some out →
      out.length ≤ maxB ∧ ∃ i q, out = c.encodeJPEG i q := by
    intro hgt h
    unfold resize_image at h
    rw [if_neg hgt] at h
    cases hdec : c.decode image_bytes with
    | none => rw [hdec] at h; exact Option.noConfusion h
    | some img =>
      rw [hdec] at h
      replace h : (match tryQualities c img maxB [85, 70, 50, 30] with
        | some buf => some buf
        | none => downscaleLoop c maxB fuel img) = some out := h
      cases htq : tryQualities c img maxB [85, 70, 50, 30] with
      | some buf =>
        rw [htq] at h
        cases h
        obtain ⟨hlen, q, hq⟩ := tryQualities_fits c img maxB _ htq
        exact ⟨hlen, img, q, hq⟩
      | none =>
        rw [htq] at h
        exact downscaleLoop_fits c maxB fuel img h
  refine ⟨?_, ?_, ?_, ?_⟩
  · intro hle
    unfold resize_image
    rw [if_pos hle]
  · intro h
    by_cases hle : image_bytes.length ≤ maxB
    · unfold resize_image at h
      rw [if_pos hle] at h
      cases h
      exact hle
    · exact (hbig hle h).1
  · intro hgt h
    exact (hbig (not_le.mpr hgt) h).2
  · intro hdec hgt h
    obtain ⟨i, q, hq⟩ := (hbig (not_le.mpr hgt) h).2
    rw [hq]
    exact hdec i q

/-- Witness for C5 at a concrete input: with a trivial codec, a 3-byte
input is returned unchanged under a 10-byte ceiling. -/
theorem resize_image_size_fit_witness :
    resize_image
      ({ decode := fun _ => some (), encodeJPEG := fun _ _ => [],
         resize := fun _ _ => (), size := fun _ => (0, 0) } : Codec Unit)
      1 [7, 8, 9] 10 = some [7, 8, 9] :=
  (resize_image_size_fit
      ({ decode := fun _ => some (), encodeJPEG := fun _ _ => [],
         resize := fun _ _ => (), size := fun _ => (0, 0) } : Codec Unit)
      1 [7, 8, 9] [] 10).1 (by decide)

/-! ### C8, C9: routing-branch handler, artifacts and routing records -/

/-- Python `key.startswith(prefix)`. -/
def pyStartswith (s pre : String) : Bool :=
  s.data.take pre.data.length == pre.data

/-- The characters kept by `_sanitize_key_component`'s regex
`[^A-Za-z0-9._-]`. -/
def isSafeChar (c : Char) : Bool :=
  ('A' ≤ c ∧ c ≤ 'Z') ∨ ('a' ≤ c ∧ c ≤ 'z') ∨ ('0' ≤ c ∧ c ≤ '9') ∨
    c = '.' ∨ c = '_' ∨ c = '-'

/-- `_sanitize_key_component` (adjuster/index.py lines 255-257): replace
every unsafe character with `_`, truncate to 120 characters, fall back to
`"home"` when the result is empty. -/
def sanitizeKeyComponent (value : String) : String :=
  let cleaned := String.mk (value.data.map (fun c => if isSafeChar c then c else '_'))
  let truncated := String.mk (cleaned.data.take 120)
  if truncated = "" then "home" else truncated

/-- `f"s3://\x7bbucket\x7d/\x7bkey\x7d"`. -/
def s3Uri (bucket key : String) : String := "s3://" ++ bucket ++ "/" ++ key

/-- The crop object key written by `_save_visual_artifacts`. -/
def cropKey (image_key house_id : String) : String :=
  "routing-artifacts/crops/" ++ image_key ++ "/" ++
    sanitizeKeyComponent house_id ++ ".png"

/-- The annotated-overview object key written by
`_save_visual_artifacts`. -/
def annotatedKey (image_key : String) : String :=
  "routing-artifacts/annotated/" ++ image_key ++ ".annotated.png"

/-- Rendering of a Python float into the string stored in DynamoDB
(`str(...)` in `_write_routing_results` / `_bbox_to_dynamodb_map`).
Modelled as the canonical rational rendering; only its determinism
matters for the properties below. -/
def qRepr (q : ℚ) : String := toString q

/-- `_bbox_to_dynamodb_map` (lines 273-281). -/
def bboxToDynamoMap : Option BBox → Option (String × String × String × String)
  | none => none
  | some b => some (qRepr b.x_min, qRepr b.y_min, qRepr b.x_max, qRepr b.y_max)

/-- `crop_uris.get(house_id)` on the dict of crop URIs. -/
def lookupStr : List (String × String) → String → Option String
  | [], _ => none
  | (k, v) :: rest, key => if k = key then some v else lookupStr rest key

/-- One DynamoDB item written by `_write_routing_results`
(lines 349-375). -/
structure RoutingItem : Type where
  routing_id : String
  source_image_uri : String
  house_id : String
  decision : String
  has_5ft_inclusion_zone : Option JsonVal
  confidence : String
  reason : String
  bbox : Option (String × String × String × String)
  home_crop_s3_uri : Option String
  annotated_image_s3_uri : Option String
  created_at : String

/-- The external calls the routing branch can make. -/
inductive Effect : Type where
  | s3GetObject (bucket key : String)
  | bedrockInvoke
  | s3PutObject (bucket key : String)
  | ddbPutItem (item : RoutingItem)

/-- The item `_write_routing_results` builds for one normalized home. -/
def routingItem (bucket image_key : String) (crop_uris : List (String × String))
    (annotated : Option String) (timestamp : String) (home : Home) : RoutingItem :=
  { routing_id := image_key ++ "#" ++ home.house_id
    source_image_uri := s3Uri bucket image_key
    house_id := home.house_id
    decision := home.decision
    has_5ft_inclusion_zone := home.has_5ft_inclusion_zone
    confidence := qRepr home.confidence
    reason := home.reason
    bbox := bboxToDynamoMap home.bbox
    home_crop_s3_uri := lookupStr crop_uris home.house_id
    annotated_image_s3_uri := annotated
    created_at := timestamp }

/-- `_write_routing_results`: one batched put per normalized home, all
sharing a single `datetime.now` timestamp. -/
def writeRoutingResults (bucket image_key : String) (normalized : Normalized)
    (annotated : Option String) (crop_uris : List (String × String))
    (timestamp : String) : List RoutingItem :=
  normalized.homes.map (routingItem bucket image_key crop_uris annotated timestamp)

/-- `_save_visual_artifacts` (lines 284-346), with the pixel-level crop
and drawing operations abstracted: when Pillow is unavailable or the
source image cannot be opened (`pilOk = false`), the whole stage degrades
to a no-op; otherwise one crop object is written per home with a kept
bounding box, plus one annotated overview object.  Returns the annotated
URI and the crop-URI dict, together with the list of S3 writes. -/
def saveVisualArtifacts (bucket image_key : String) (pilOk : Bool)
    (normalized : Normalized) :
    (Option String × List (String × String)) × List Effect :=
  if !pilOk then ((none, []), [])
  else
    let withBox := normalized.homes.filter (fun h => h.bbox.isSome)
    ((some (s3Uri bucket (annotatedKey image_key)),
      withBox.map (fun h => (h.house_id, s3Uri bucket (cropKey image_key h.house_id)))),
     withBox.map (fun h => Effect.s3PutObject bucket (cropKey image_key h.house_id)) ++
       [Effect.s3PutObject bucket (annotatedKey image_key)])

/-- Return value of `lambda_handler`: the skip marker for keys outside
the `compared/` prefix, or the processed summary. -/
inductive HandlerResult : Type where
  | skipped (bucket key reason : String)
  | processed (bucket key : String) (annotated : Option String) (summary : Summary)

/-- The normalize/artifact/write tail of `lambda_handler`, reached once
the image has been read and `_invoke_bedrock` has returned parsed
output. -/
def processBranch (bucket key : String) (raw : JsonVal) (pilOk : Bool)
    (timestamp : String) : Except String HandlerResult × List Effect :=
  match normalizeDecisions raw with
  | Except.error e =>
    (Except.error e, [Effect.s3GetObject bucket key, Effect.bedrockInvoke])
  | Except.ok normalized =>
    let arts := saveVisualArtifacts bucket key pilOk normalized
    let items := writeRoutingResults bucket key normalized arts.1.1 arts.1.2 timestamp
    (Except.ok (HandlerResult.processed bucket key arts.1.1 normalized.summary),
      Effect.s3GetObject bucket key :: Effect.bedrockInvoke ::
        (arts.2 ++ items.map Effect.ddbPutItem))

/-- `lambda_handler` (adjuster/index.py lines 385-424) after bucket/key
extraction.  The outcomes of the external calls are supplied as
arguments (`loadImage` for the S3 image read, `bedrockOut` for
`_invoke_bedrock`'s parsed result, `pilOk` for Pillow availability,
`timestamp` for `datetime.now`); the effect list records the external
calls actually made, in order. -/
def lambdaHandler (bucket key : String) (loadImage : Except String (List ℕ))
    (bedrockOut : Except String JsonVal) (pilOk : Bool) (timestamp : String) :
    Except String HandlerResult × List Effect :=
  if !(pyStartswith key "compared/") then
    (Except.ok (HandlerResult.skipped bucket key "unsupported-prefix"), [])
  else
    match loadImage with
    | Except.error e => (Except.error e, [Effect.s3GetObject bucket key])
    | Except.ok _imageBytes =>
      match bedrockOut with
      | Except.error e =>
        (Except.error e, [Effect.s3GetObject bucket key, Effect.bedrockInvoke])
      | Except.ok raw => processBranch bucket key raw pilOk timestamp

/-- C8: an event key outside the `compared/` prefix yields the
skipped/unsupported-prefix marker (not an error), and the effect trace is
empty — no image read, no reasoning-service invocation, no artifact
write, no routing-record write. -/
theorem unmatched_key_skip (bucket key : String) (loadImage : Except String (List ℕ))
    (bedrockOut : Except String JsonVal) (pilOk : Bool) (timestamp : String)
    (h : pyStartswith key "compared/" = false) :
    lambdaHandler bucket key loadImage bedrockOut pilOk timestamp =
      (Except.ok (HandlerResult.skipped bucket key "unsupported-prefix"), []) := by
  unfold lambdaHandler
  rw [h]
  rfl

/-- Witness for C8 at a concrete input: the key `other/ignored.txt` is
skipped with no effects. -/
theorem unmatched_key_skip_witness :
    lambdaHandler "bucket" "other/ignored.txt" (Except.ok [])
      (Except.ok JsonVal.null) true "2024-01-01T00:00:00" =
      (Except.ok (HandlerResult.skipped "bucket" "other/ignored.txt"
        "unsupported-prefix"), []) :=
  unmatched_key_skip "bucket" "other/ignored.txt" (Except.ok [])
    (Except.ok JsonVal.null) true "2024-01-01T00:00:00" (by decide)

/-- Extract the routing records written during a handler run from its
effect trace. -/
def ddbItemsOf (r : Except String HandlerResult × List Effect) : List RoutingItem :=
  r.2.filterMap (fun e => match e with
    | Effect.ddbPutItem it => some it
    | _ => none)

/-- Erase the creation timestamp of a routing record. -/
def stripCreatedAt (it : RoutingItem) : RoutingItem := { it with created_at := "" }

lemma filterMap_ddb_map (items : List RoutingItem) :
    (items.map Effect.ddbPutItem).filterMap (fun e => match e with
      | Effect.ddbPutItem it => some it
      | _ => none) = items := by
  induction items with
  | nil => rfl
  | cons a l ih => simp [List.filterMap_cons, ih]

lemma filterMap_ddb_none (arts : List Effect)
    (h : ∀ e ∈ arts, ∀ it, e ≠ Effect.ddbPutItem it) :
    arts.filterMap (fun e => match e with
      | Effect.ddbPutItem it => some it
      | _ => none) = [] := by
  induction arts with
  | nil => rfl
  | cons a l ih =>
    have ih' := ih (fun e he it => h e (List.mem_cons_of_mem _ he) it)
    cases a with
    | ddbPutItem it => exact absurd rfl (h _ (List.mem_cons_self _ _) it)
    | s3GetObject b k => simp [List.filterMap_cons, ih']
    | bedrockInvoke => simp [List.filterMap_cons, ih']
    | s3PutObject b k => simp [List.filterMap_cons, ih']

lemma saveVisualArtifacts_no_ddb (bucket image_key : String) (pilOk : Bool)
    (normalized : Normalized) :
    ∀ e ∈ (saveVisualArtifacts bucket image_key pilOk normalized).2,
      ∀ it, e ≠ Effect.ddbPutItem it := by
  intro e he it
  unfold saveVisualArtifacts at he
  cases pilOk with
  | false => simp at he
  | true =>
    simp only [Bool.not_true, if_neg] at he
    rcases List.mem_append.mp he with h1 | h2
    · obtain ⟨h', _, rfl⟩ := List.mem_map.mp h1
      simp
    · rw [List.mem_singleton.mp h2]
      simp

/-- C9: running the routing branch twice on the same source key with the
same reasoning-service output writes, for every structure, routing
records with identical content up to the creation timestamp, and each
record's primary key is the concatenation of the source object key and
the structure identifier. -/
theorem routing_record_idempotence (bucket key : String) (img : List ℕ)
    (raw : JsonVal) (pilOk : Bool) (t1 t2 : String) :
    (ddbItemsOf (lambdaHandler bucket key (Except.ok img) (Except.ok raw)
        pilOk t1)).map stripCreatedAt =
      (ddbItemsOf (lambdaHandler bucket key (Except.ok img) (Except.ok raw)
        pilOk t2)).map stripCreatedAt ∧
    (ddbItemsOf (lambdaHandler bucket key (Except.ok img) (Except.ok raw)
        pilOk t1)).map (fun it => it.routing_id) =
      (ddbItemsOf (lambdaHandler bucket key (Except.ok img) (Except.ok raw)
        pilOk t1)).map (fun it => key ++ "#" ++ it.house_id) := by
  cases hk : pyStartswith key "compared/" with
  | false =>
    have h0 : ∀ t, lambdaHandler bucket key (Except.ok img) (Except.ok raw)
        pilOk t = (Except.ok (HandlerResult.skipped bucket key
          "unsupported-prefix"), []) := by
      intro t
      unfold lambdaHandler
      rw [hk]
      rfl
    rw [h0 t1, h0 t2]
    exact ⟨rfl, rfl⟩
  | true =>
    have h0 : ∀ t, lambdaHandler bucket key (Except.ok img) (Except.ok raw)
        pilOk t = processBranch bucket key raw pilOk t := by
      intro t
      unfold lambdaHandler
      rw [hk]
      rfl
    rw [h0 t1, h0 t2]
    cases hn : normalizeDecisions raw with
    | error e =>
      have h1 : ∀ t, processBranch bucket key raw pilOk t =
          (Except.error e, [Effect.s3GetObject bucket key, Effect.bedrockInvoke]) := by
        intro t
        unfold processBranch
        rw [hn]
      rw [h1 t1, h1 t2]
      exact ⟨rfl, rfl⟩
    | ok normalized =>
      have h1 : ∀ t, ddbItemsOf (processBranch bucket key raw pilOk t) =
          writeRoutingResults bucket key normalized
            (saveVisualArtifacts bucket key pilOk normalized).1.1
            (saveVisualArtifacts bucket key pilOk normalized).1.2 t := by
        intro t
        unfold processBranch
        rw [hn]
        show (Effect.s3GetObject bucket key :: Effect.bedrockInvoke ::
          ((saveVisualArtifacts bucket key pilOk normalized).2 ++
            (writeRoutingResults bucket key normalized
              (saveVisualArtifacts bucket key pilOk normalized).1.1
              (saveVisualArtifacts bucket key pilOk normalized).1.2 t).map
              Effect.ddbPutItem)).filterMap (fun e => match e with
                | Effect.ddbPutItem it => some it
                | _ => none) = _
        rw [List.filterMap_cons, List.filterMap_cons]
        show ((saveVisualArtifacts bucket key pilOk normalized).2 ++
          (writeRoutingResults bucket key normalized
            (saveVisualArtifacts bucket key pilOk normalized).1.1
            (saveVisualArtifacts bucket key pilOk normalized).1.2 t).map
            Effect.ddbPutItem).filterMap (fun e => match e with
              | Effect.ddbPutItem it => some it
              | _ => none) = _
        rw [List.filterMap_append,
          filterMap_ddb_none _ (saveVisualArtifacts_no_ddb bucket key pilOk normalized),
          filterMap_ddb_map]
        rfl
      rw [h1 t1, h1 t2]
      constructor
      · unfold writeRoutingResults
        rw [List.map_map, List.map_map]
        rfl
      · unfold writeRoutingResults
        rw [List.map_map, List.map_map]
        rfl

end Pipeline
